import Mathlib

/-!
# Verification of the code-execution and tracing service

This file gives a shallow embedding of the core of the service:

* the debug-session command interpreter (`step`, `continue`, `next`, `out`,
  `setBreakpoint`) over a precomputed trace array,
* the Lang-A (JavaScript) AST instrumenter (declaration-kind rewriting and
  `__trace` probe injection) together with a trace-collecting evaluator for
  the straight-line fragment it produces,
* the Lang-B (Python) tracer-runner response mapping, including the JSON
  parse of the tracer's stdout and the argv construction for the spawned
  tracer subprocess,
* the execution endpoint's input guard and language dispatch.

Definitions are translated from the controller source
(`instrumentJavaScript`, `executeCode`, `startDebugSession`,
`debuggerCommand`).  Theorems settle the specification's claims about
those functions.
-/

namespace ExecService

/-! ## Trace events and debug sessions

A trace event as inspected by the debugger command interpreter: the
commands read only `line` (for breakpoints) and `callStack` (for the
step-over / step-out depth comparison); the remaining payload (`locals`,
...) is never consulted by `debuggerCommand` and is not modelled. -/

structure Ev where
  line : Int
  callStack : Option (List String)
deriving DecidableEq, Repr

/-- A debug session as stored in `debugSessions`: the precomputed trace,
the cursor (initialised to `-1`), and the breakpoint set.  The JS `Set`
of breakpoints is modelled as an insertion-ordered duplicate-free list,
matching the iteration order of `Array.from`. -/
structure Session where
  events : List Ev
  pointer : Int
  breakpoints : List Int
deriving DecidableEq, Repr

/-- Response shape of the navigation commands: `{ event, done }`. -/
structure NavResponse where
  event : Option Ev
  done : Bool
deriving DecidableEq, Repr

/-- JavaScript array indexing `l[i]` with a possibly negative index:
`undefined` (here `none`) out of range. -/
def intGet {α : Type} (l : List α) (i : Int) : Option α :=
  if 0 ≤ i then l.get? i.toNat else none

/-- `Set.prototype.has` on the modelled breakpoint set. -/
def bpsHas (bps : List Int) (x : Int) : Bool :=
  bps.contains x

/-- `Set.prototype.add`: append the element unless already present
(JS sets keep insertion order). -/
def bpsAdd (bps : List Int) (n : Int) : List Int :=
  if bps.contains n then bps else bps ++ [n]

/-- `new Set(xs)`: deduplicate keeping first occurrences. -/
def newSet (xs : List Int) : List Int :=
  xs.foldl bpsAdd []

/-- The session created by `startDebugSession` (line 130-134 of the
controller): trace events from the tracer, `pointer := -1`, and
`breakpoints := new Set(breakpoints)`. -/
def startSession (traces : List Ev) (breakpoints : List Int) : Session :=
  { events := traces, pointer := -1, breakpoints := newSet breakpoints }

/-- The scan loop shared by `continue` / `next` / `out`:
`while (ptr < events.length && p(events[ptr])) ptr += 1`.
The structural `fuel` argument is a termination device only; `scan`
below supplies enough fuel for the loop to run to its JS fixpoint. -/
def scanGo (evs : List Ev) (p : Ev → Bool) : Nat → Nat → Nat
  | 0, i => i
  | fuel + 1, i =>
    match evs.get? i with
    | none => i
    | some e => if p e then scanGo evs p fuel (i + 1) else i

/-- The scan loop with sufficient fuel: starting from index `i`, skip
forward while the predicate holds and the index is in range. -/
def scan (evs : List Ev) (p : Ev → Bool) (i : Nat) : Nat :=
  scanGo evs p (evs.length + 1) i

/-- The `step` command (controller lines 152-165): `advance()` moves the
pointer one step; past the end it clamps the stored pointer to
`events.length - 1` and yields `null`, and the response is
`{ event: ev, done: ev === null }`. -/
def stepCmd (s : Session) : Session × NavResponse :=
  let len : Int := s.events.length
  let ptr : Int := s.pointer + 1
  if len ≤ ptr then
    ({ s with pointer := len - 1 }, { event := none, done := true })
  else
    ({ s with pointer := ptr }, { event := intGet s.events ptr, done := false })

/-- The `continue` command (controller lines 167-175): advance by one,
skip while the event's line is not a breakpoint, clamp to the last index,
and report `done` iff the final pointer is the last index. -/
def continueCmd (s : Session) : Session × NavResponse :=
  let len : Int := s.events.length
  let start : Nat := (s.pointer + 1).toNat
  let j : Nat := scan s.events (fun e => !bpsHas s.breakpoints e.line) start
  let ptr : Int := if len ≤ (j : Int) then len - 1 else (j : Int)
  ({ s with pointer := ptr }, { event := intGet s.events ptr, done := ptr = len - 1 })

/-- `e.callStack?.length || 0`: the call-stack depth of an event, `0`
when the field is absent (`||` also maps an empty stack to `0`, which is
already its length). -/
def evDepth (e : Ev) : Nat :=
  match e.callStack with
  | none => 0
  | some l => l.length

/-- `events[ptr]?.callStack?.length || 0`: the depth at the current
pointer, `0` when the pointer is out of range. -/
def curDepth (s : Session) : Nat :=
  match intGet s.events s.pointer with
  | none => 0
  | some e => evDepth e

/-- The `next` command (controller lines 177-186): record the depth at
the current pointer, advance by one, skip while the depth is strictly
greater, clamp to the last index. -/
def nextCmd (s : Session) : Session × NavResponse :=
  let len : Int := s.events.length
  let depth : Nat := curDepth s
  let start : Nat := (s.pointer + 1).toNat
  let j : Nat := scan s.events (fun e => decide (depth < evDepth e)) start
  let ptr : Int := if len ≤ (j : Int) then len - 1 else (j : Int)
  ({ s with pointer := ptr }, { event := intGet s.events ptr, done := ptr = len - 1 })

/-- The `out` command (controller lines 188-197): like `next` but skips
while the depth is greater than or equal to the recorded depth. -/
def outCmd (s : Session) : Session × NavResponse :=
  let len : Int := s.events.length
  let depth : Nat := curDepth s
  let start : Nat := (s.pointer + 1).toNat
  let j : Nat := scan s.events (fun e => decide (depth ≤ evDepth e)) start
  let ptr : Int := if len ≤ (j : Int) then len - 1 else (j : Int)
  ({ s with pointer := ptr }, { event := intGet s.events ptr, done := ptr = len - 1 })

/-- The `line` field of a `setBreakpoint` request: `typeof line ===
'number'` distinguishes a numeric line from anything else. -/
inductive LineArg where
  | num (n : Int)
  | nonNumeric
deriving DecidableEq, Repr

/-- The `setBreakpoint` command (controller lines 199-204): a numeric
line is added to the session's breakpoint set, anything else is ignored;
the response is `Array.from(breakpoints)`. -/
def setBreakpointCmd (s : Session) (line : LineArg) : Session × List Int :=
  match line with
  | .num n =>
    let bps := bpsAdd s.breakpoints n
    ({ s with breakpoints := bps }, bps)
  | .nonNumeric => (s, s.breakpoints)

/-! ## Properties of the scan loop -/

theorem scanGo_ge (evs : List Ev) (p : Ev → Bool) :
    ∀ fuel i, i ≤ scanGo evs p fuel i := by
  intro fuel
  induction fuel with
  | zero => intro i; simp [scanGo]
  | succ fuel ih =>
    intro i
    simp only [scanGo]
    cases h : evs.get? i with
    | none => exact Nat.le_refl i
    | some e =>
      by_cases hp : p e
      · simpa [hp] using Nat.le_trans (Nat.le_succ i) (ih (i + 1))
      · simp [hp]

theorem scanGo_le_len (evs : List Ev) (p : Ev → Bool) :
    ∀ fuel i, i ≤ evs.length → scanGo evs p fuel i ≤ evs.length := by
  intro fuel
  induction fuel with
  | zero => intro i hi; simpa [scanGo] using hi
  | succ fuel ih =>
    intro i hi
    simp only [scanGo]
    cases h : evs.get? i with
    | none => exact hi
    | some e =>
      have hlt : i < evs.length := by
        by_contra hge
        rw [List.get?_eq_none.mpr (Nat.le_of_not_lt hge)] at h
        exact Option.noConfusion h
      by_cases hp : p e
      · simpa [hp] using ih (i + 1) hlt
      · simpa [hp] using hi

theorem scanGo_skipped (evs : List Ev) (p : Ev → Bool) :
    ∀ fuel i k, i ≤ k → k < scanGo evs p fuel i →
      ∃ e, evs.get? k = some e ∧ p e = true := by
  intro fuel
  induction fuel with
  | zero => intro i k hik hk; simp [scanGo] at hk; omega
  | succ fuel ih =>
    intro i k hik hk
    simp only [scanGo] at hk
    split at hk
    · omega
    · rename_i e h
      split at hk
      · rename_i hp
        rcases Nat.eq_or_lt_of_le hik with heq | hlt
        · exact ⟨e, heq ▸ h, hp⟩
        · exact ih (i + 1) k hlt hk
      · omega

theorem scanGo_stop (evs : List Ev) (p : Ev → Bool) :
    ∀ fuel i, evs.length - i < fuel →
      evs.get? (scanGo evs p fuel i) = none ∨
      ∃ e, evs.get? (scanGo evs p fuel i) = some e ∧ p e = false := by
  intro fuel
  induction fuel with
  | zero => intro i hfuel; omega
  | succ fuel ih =>
    intro i hfuel
    simp only [scanGo]
    split
    · rename_i h
      exact Or.inl h
    · rename_i e h
      have hlt : i < evs.length := by
        by_contra hge
        rw [List.get?_eq_none.mpr (Nat.le_of_not_lt hge)] at h
        exact Option.noConfusion h
      by_cases hp : p e
      · rw [if_pos hp]
        exact ih (i + 1) (by omega)
      · rw [if_neg hp]
        exact Or.inr ⟨e, h, by simpa using hp⟩

theorem scan_ge (evs : List Ev) (p : Ev → Bool) (i : Nat) : i ≤ scan evs p i :=
  scanGo_ge evs p _ i

theorem scan_le_len (evs : List Ev) (p : Ev → Bool) (i : Nat) (hi : i ≤ evs.length) :
    scan evs p i ≤ evs.length :=
  scanGo_le_len evs p _ i hi

theorem scan_skipped (evs : List Ev) (p : Ev → Bool) (i k : Nat) (hik : i ≤ k)
    (hk : k < scan evs p i) : ∃ e, evs.get? k = some e ∧ p e = true :=
  scanGo_skipped evs p _ i k hik hk

theorem scan_stop (evs : List Ev) (p : Ev → Bool) (i : Nat) :
    evs.get? (scan evs p i) = none ∨
    ∃ e, evs.get? (scan evs p i) = some e ∧ p e = false :=
  scanGo_stop evs p _ i (by omega)

/-- The clamped landing pointer shared by `continue` / `next` / `out`:
starting one past the current pointer, scan with `p`, then clamp an
off-the-end result to the last index.  The hypotheses say the pointer is
in the reachable range (`-1` up to the last index). -/
theorem clampScan_spec (evs : List Ev) (p : Ev → Bool) (pointer ptr : Int)
    (h1 : -1 ≤ pointer) (h2 : pointer ≤ (evs.length : Int) - 1)
    (hptr : ptr = if (evs.length : Int) ≤ (scan evs p (pointer + 1).toNat : Int)
      then (evs.length : Int) - 1 else (scan evs p (pointer + 1).toNat : Int)) :
    pointer ≤ ptr ∧ ptr ≤ (evs.length : Int) - 1 ∧ (evs ≠ [] → 0 ≤ ptr) := by
  subst hptr
  have hsle : (pointer + 1).toNat ≤ evs.length := Int.toNat_le.mpr (by omega)
  have hge : (pointer + 1).toNat ≤ scan evs p (pointer + 1).toNat := scan_ge evs p _
  have hle : scan evs p (pointer + 1).toNat ≤ evs.length := scan_le_len evs p _ hsle
  by_cases hc : (evs.length : Int) ≤ (scan evs p (pointer + 1).toNat : Int)
  · rw [if_pos hc]
    refine ⟨by omega, by omega, fun hne => ?_⟩
    have : 0 < evs.length := List.length_pos.mpr hne
    omega
  · rw [if_neg hc]
    have hge' : ((pointer + 1).toNat : Int) ≤ (scan evs p (pointer + 1).toNat : Int) := by
      exact_mod_cast hge
    refine ⟨by omega, by omega, fun _ => by omega⟩

/-- The final pointer of `continue`, unfolded to the clamped scan. -/
theorem continueCmd_pointer (s : Session) :
    (continueCmd s).1.pointer =
      if (s.events.length : Int) ≤
          (scan s.events (fun e => !bpsHas s.breakpoints e.line) (s.pointer + 1).toNat : Int)
      then (s.events.length : Int) - 1
      else (scan s.events (fun e => !bpsHas s.breakpoints e.line) (s.pointer + 1).toNat : Int) :=
  rfl

/-- The final pointer of `next`, unfolded to the clamped scan. -/
theorem nextCmd_pointer (s : Session) :
    (nextCmd s).1.pointer =
      if (s.events.length : Int) ≤
          (scan s.events (fun e => decide (curDepth s < evDepth e)) (s.pointer + 1).toNat : Int)
      then (s.events.length : Int) - 1
      else (scan s.events (fun e => decide (curDepth s < evDepth e)) (s.pointer + 1).toNat : Int) :=
  rfl

/-- The final pointer of `out`, unfolded to the clamped scan. -/
theorem outCmd_pointer (s : Session) :
    (outCmd s).1.pointer =
      if (s.events.length : Int) ≤
          (scan s.events (fun e => decide (curDepth s ≤ evDepth e)) (s.pointer + 1).toNat : Int)
      then (s.events.length : Int) - 1
      else (scan s.events (fun e => decide (curDepth s ≤ evDepth e)) (s.pointer + 1).toNat : Int) :=
  rfl

/-- A trace event carrying only a line number (no call stack), as in the
S4 scenario. -/
def evLine (n : Int) : Ev := { line := n, callStack := none }

/-! ## Claim C2: the `step` command -/

/-- Claim C2 counterexample.  On a session with one event and the pointer
already at the last index, `step` clamps and reports `done = true`, but
the returned event is `null` — not the last event, although `events` is
not empty.  (The claim asserts the last event is returned together with
`done = true` whenever `events` is non-empty.) -/
theorem step_clamp_returns_null_event :
    stepCmd { events := [evLine 1], pointer := 0, breakpoints := [] } =
      ({ events := [evLine 1], pointer := 0, breakpoints := [] },
        { event := none, done := true }) ∧
    ({ events := [evLine 1], pointer := 0, breakpoints := [] } : Session).events ≠ [] := by
  decide

/-- Claim C2 (amended): `step` advances the pointer by 1; if the new
pointer is past the end it clamps the pointer to the last index and
returns `done = true` with `event = null` — whether or not `events` is
empty; otherwise it returns `done = false` and the (non-null) event at
the new pointer. -/
theorem step_cmd_spec (s : Session) (h : -1 ≤ s.pointer) :
    ((s.events.length : Int) ≤ s.pointer + 1 →
      stepCmd s = ({ s with pointer := (s.events.length : Int) - 1 },
        { event := none, done := true })) ∧
    (s.pointer + 1 < (s.events.length : Int) →
      stepCmd s = ({ s with pointer := s.pointer + 1 },
        { event := intGet s.events (s.pointer + 1), done := false }) ∧
      ∃ e, intGet s.events (s.pointer + 1) = some e) := by
  constructor
  · intro hge
    simp only [stepCmd]
    rw [if_pos hge]
  · intro hlt
    constructor
    · simp only [stepCmd]
      rw [if_neg (not_le.mpr hlt)]
    · have h0 : 0 ≤ s.pointer + 1 := by omega
      have hn : (s.pointer + 1).toNat < s.events.length := by omega
      exact ⟨s.events.get ⟨(s.pointer + 1).toNat, hn⟩, by
        simp [intGet, h0, List.get?_eq_get hn]⟩

/-- Witness for `step_cmd_spec` at a concrete two-event session. -/
theorem step_cmd_spec_witness :
    stepCmd { events := [evLine 1, evLine 2], pointer := -1, breakpoints := [] } =
      ({ events := [evLine 1, evLine 2], pointer := 0, breakpoints := [] },
        { event := some (evLine 1), done := false }) := by
  have h := (step_cmd_spec
    { events := [evLine 1, evLine 2], pointer := -1, breakpoints := [] }
    (by decide)).2 (by decide)
  simpa [intGet] using h.1

/-! ## Claim C4: the `continue` command -/

/-- Claim C4: `continue` advances the pointer by 1 and skips forward
while the event's line is not in the breakpoint set: every event strictly
between the old pointer and the landing point is a non-breakpoint, and
the landing point is either a breakpoint event or the clamped last index
with `done = true`.  With no breakpoint among the events (in particular
with an empty breakpoint set) this is exactly fast-forwarding to the last
event with `done = true`.  On the S4 session — breakpoints `[5]`, events
with lines `[1,2,3,4,5,6]`, initial pointer — one `continue` lands on
index 4 (line 5) with `done = false`. -/
theorem continue_cmd_spec :
    (∀ s : Session, -1 ≤ s.pointer → s.pointer ≤ (s.events.length : Int) - 1 →
      (∀ k : Nat, (s.pointer + 1).toNat ≤ k → ((k : Int) < (continueCmd s).1.pointer) →
        ∃ e, s.events.get? k = some e ∧ bpsHas s.breakpoints e.line = false) ∧
      ((∃ e, intGet s.events (continueCmd s).1.pointer = some e ∧
          bpsHas s.breakpoints e.line = true) ∨
        ((continueCmd s).1.pointer = (s.events.length : Int) - 1 ∧
          (continueCmd s).2.done = true))) ∧
    (∀ s : Session, -1 ≤ s.pointer → s.pointer ≤ (s.events.length : Int) - 1 →
      (∀ e ∈ s.events, bpsHas s.breakpoints e.line = false) →
      (continueCmd s).1.pointer = (s.events.length : Int) - 1 ∧
        (continueCmd s).2.done = true) ∧
    continueCmd (startSession
        [evLine 1, evLine 2, evLine 3, evLine 4, evLine 5, evLine 6] [5]) =
      ({ events := [evLine 1, evLine 2, evLine 3, evLine 4, evLine 5, evLine 6],
         pointer := 4, breakpoints := [5] },
        { event := some (evLine 5), done := false }) := by
  have hscan : ∀ s : Session, -1 ≤ s.pointer → s.pointer ≤ (s.events.length : Int) - 1 →
      (s.pointer + 1).toNat ≤ s.events.length := by
    intro s h1 h2
    exact Int.toNat_le.mpr (by omega)
  refine ⟨?_, ?_, by decide⟩
  · intro s h1 h2
    set p : Ev → Bool := fun e => !bpsHas s.breakpoints e.line with hp
    set j : Nat := scan s.events p (s.pointer + 1).toNat with hj
    have hjle : j ≤ s.events.length := scan_le_len s.events p _ (hscan s h1 h2)
    constructor
    · intro k hk1 hk2
      rw [continueCmd_pointer s] at hk2
      have hkj : k < j := by
        by_cases hc : (s.events.length : Int) ≤ (j : Int)
        · rw [if_pos hc] at hk2
          have : (k : Int) < (j : Int) := by omega
          exact_mod_cast this
        · rw [if_neg hc] at hk2
          exact_mod_cast hk2
      obtain ⟨e, he, hpe⟩ := scan_skipped s.events p _ k hk1 hkj
      exact ⟨e, he, by simpa [hp] using hpe⟩
    · by_cases hc : (s.events.length : Int) ≤ (j : Int)
      · right
        rw [continueCmd_pointer s, if_pos hc]
        refine ⟨rfl, ?_⟩
        simp only [continueCmd]
        rw [if_pos hc]
        simp
      · left
        have hjlt : j < s.events.length := by omega
        rcases scan_stop s.events p ((s.pointer + 1).toNat) with hnone | ⟨e, he, hpe⟩
        · rw [List.get?_eq_none] at hnone
          omega
        · refine ⟨e, ?_, by simpa [hp] using hpe⟩
          rw [continueCmd_pointer s, if_neg hc]
          simpa [intGet] using he
  · intro s h1 h2 hnobp
    set p : Ev → Bool := fun e => !bpsHas s.breakpoints e.line with hp
    set j : Nat := scan s.events p (s.pointer + 1).toNat with hj
    have hjle : j ≤ s.events.length := scan_le_len s.events p _ (hscan s h1 h2)
    have hc : (s.events.length : Int) ≤ (j : Int) := by
      rcases scan_stop s.events p ((s.pointer + 1).toNat) with hnone | ⟨e, he, hpe⟩
      · rw [List.get?_eq_none] at hnone
        exact_mod_cast hnone
      · exfalso
        have hmem : e ∈ s.events := List.get?_mem he
        have := hnobp e hmem
        simp [hp, this] at hpe
    constructor
    · rw [continueCmd_pointer s, if_pos hc]
    · simp only [continueCmd]
      rw [if_pos hc]
      simp

/-- Witness for `continue_cmd_spec` at a concrete session: empty
breakpoint set, events at lines 1 and 2, fresh pointer. -/
theorem continue_cmd_spec_witness :
    (continueCmd { events := [evLine 1, evLine 2], pointer := -1,
                   breakpoints := [] }).1.pointer = 1 ∧
    (continueCmd { events := [evLine 1, evLine 2], pointer := -1,
                   breakpoints := [] }).2.done = true := by
  have h := continue_cmd_spec.2.1
    { events := [evLine 1, evLine 2], pointer := -1, breakpoints := [] }
    (by decide) (by decide) (by decide)
  simpa using h

/-! ## Claim C5: the `next` command on the S5 session -/

/-- A trace event at call-stack depth `d` (stack of `d` frames). -/
def evDepthN (d : Nat) : Ev := { line := 0, callStack := some (List.replicate d "f") }

/-- The S5 session: events with call-stack depths `[1,1,2,2,1]` and
pointer `0`. -/
def s5session : Session :=
  { events := [evDepthN 1, evDepthN 1, evDepthN 2, evDepthN 2, evDepthN 1],
    pointer := 0, breakpoints := [] }

/-- Claim C5 counterexample.  On the S5 session (depths `[1,1,2,2,1]`,
pointer 0), `next` lands the pointer on index 1 — the immediately
following event already has depth `1 ≤ 1`, so the skip loop never runs —
not on index 4 as claimed. -/
theorem next_lands_on_index_one :
    (nextCmd s5session).1.pointer = 1 ∧ (nextCmd s5session).1.pointer ≠ 4 := by
  decide

/-- Claim C5 (amended): on the S5 session, `next` lands on index 1, the
first event past the pointer whose call-stack depth is at most the depth
at the current pointer; `done = false` and the event at index 1 is
returned. -/
theorem next_cmd_s5_spec :
    nextCmd s5session =
      ({ events := [evDepthN 1, evDepthN 1, evDepthN 2, evDepthN 2, evDepthN 1],
         pointer := 1, breakpoints := [] },
        { event := some (evDepthN 1), done := false }) := by
  decide

/-! ## Claim C6: pointer invariants -/

/-- Claim C6 counterexample.  `setBreakpoint` is a successfully handled
command (it returns the breakpoint array), yet on a fresh session with
two events it leaves the pointer at `-1`, violating the claimed
`0 ≤ pointer` after any successful command with non-empty `events`. -/
theorem set_breakpoint_leaves_pointer_negative :
    (setBreakpointCmd { events := [evLine 1, evLine 2], pointer := -1,
                        breakpoints := [] } (.num 7)).1.pointer = -1 ∧
    (setBreakpointCmd { events := [evLine 1, evLine 2], pointer := -1,
                        breakpoints := [] } (.num 7)).2 = [7] ∧
    ({ events := [evLine 1, evLine 2], pointer := -1,
       breakpoints := [] } : Session).events ≠ [] := by
  decide

/-- Claim C6 (amended): for every session whose pointer is in the
reachable range (`-1` up to the last index), after any successful
navigation command (`step`, `continue`, `next`, `out`) with non-empty
`events` the pointer satisfies `0 ≤ pointer ≤ len(events) - 1`; no
command ever moves the pointer backward (`setBreakpoint` leaves it
unchanged, possibly still `-1`); and `step` strictly increases the
pointer by exactly 1 until it reaches the last index. -/
theorem pointer_invariants (s : Session) (h1 : -1 ≤ s.pointer)
    (h2 : s.pointer ≤ (s.events.length : Int) - 1) :
    (s.events ≠ [] →
      (0 ≤ (stepCmd s).1.pointer ∧ (stepCmd s).1.pointer ≤ (s.events.length : Int) - 1) ∧
      (0 ≤ (continueCmd s).1.pointer ∧
        (continueCmd s).1.pointer ≤ (s.events.length : Int) - 1) ∧
      (0 ≤ (nextCmd s).1.pointer ∧ (nextCmd s).1.pointer ≤ (s.events.length : Int) - 1) ∧
      (0 ≤ (outCmd s).1.pointer ∧ (outCmd s).1.pointer ≤ (s.events.length : Int) - 1)) ∧
    (s.pointer ≤ (stepCmd s).1.pointer ∧ s.pointer ≤ (continueCmd s).1.pointer ∧
      s.pointer ≤ (nextCmd s).1.pointer ∧ s.pointer ≤ (outCmd s).1.pointer ∧
      ∀ line, (setBreakpointCmd s line).1.pointer = s.pointer) ∧
    (s.pointer + 1 ≤ (s.events.length : Int) - 1 →
      (stepCmd s).1.pointer = s.pointer + 1) := by
  have hcont := clampScan_spec s.events (fun e => !bpsHas s.breakpoints e.line)
    s.pointer (continueCmd s).1.pointer h1 h2 (continueCmd_pointer s)
  have hnext := clampScan_spec s.events (fun e => decide (curDepth s < evDepth e))
    s.pointer (nextCmd s).1.pointer h1 h2 (nextCmd_pointer s)
  have hout := clampScan_spec s.events (fun e => decide (curDepth s ≤ evDepth e))
    s.pointer (outCmd s).1.pointer h1 h2 (outCmd_pointer s)
  have hstep : (stepCmd s).1.pointer =
      if (s.events.length : Int) ≤ s.pointer + 1 then (s.events.length : Int) - 1
      else s.pointer + 1 := by
    by_cases hc : (s.events.length : Int) ≤ s.pointer + 1
    · simp [stepCmd, hc]
    · simp [stepCmd, hc]
  have hsb : ((s.events.length : Int) ≤ s.pointer + 1 ∧
        (stepCmd s).1.pointer = (s.events.length : Int) - 1) ∨
      (s.pointer + 1 < (s.events.length : Int) ∧ (stepCmd s).1.pointer = s.pointer + 1) := by
    by_cases hc : (s.events.length : Int) ≤ s.pointer + 1
    · exact Or.inl ⟨hc, by rw [hstep, if_pos hc]⟩
    · exact Or.inr ⟨by omega, by rw [hstep, if_neg hc]⟩
  refine ⟨?_, ⟨?_, hcont.1, hnext.1, hout.1, ?_⟩, ?_⟩
  · intro hne
    have hlen : 0 < s.events.length := List.length_pos.mpr hne
    refine ⟨⟨?_, ?_⟩, ⟨hcont.2.2 hne, hcont.2.1⟩, ⟨hnext.2.2 hne, hnext.2.1⟩,
      ⟨hout.2.2 hne, hout.2.1⟩⟩
    · rcases hsb with ⟨hc, he⟩ | ⟨hc, he⟩ <;> omega
    · rcases hsb with ⟨hc, he⟩ | ⟨hc, he⟩ <;> omega
  · rcases hsb with ⟨hc, he⟩ | ⟨hc, he⟩ <;> omega
  · intro line
    cases line with
    | num n => rfl
    | nonNumeric => rfl
  · intro hinc
    rcases hsb with ⟨hc, he⟩ | ⟨hc, he⟩ <;> omega

/-- Witness for `pointer_invariants` at a concrete session. -/
theorem pointer_invariants_witness :
    0 ≤ (stepCmd { events := [evLine 1, evLine 2], pointer := 0,
                   breakpoints := [] }).1.pointer ∧
    (stepCmd { events := [evLine 1, evLine 2], pointer := 0,
               breakpoints := [] }).1.pointer = 1 := by
  have h := pointer_invariants
    { events := [evLine 1, evLine 2], pointer := 0, breakpoints := [] }
    (by decide) (by decide)
  exact ⟨((h.1 (by decide)).1).1, by simpa using h.2.2 (by decide)⟩

/-! ## Claim C9: `setBreakpoint` -/

/-- Claim C9: `setBreakpoint` with a numeric line adds that line to the
breakpoint set (set semantics: it ends up in the returned array, exactly
once when the set was duplicate-free) and returns the current set as an
array; a second call with the same line returns the same array; a
non-numeric line is ignored and the current set is returned unchanged. -/
theorem set_breakpoint_spec :
    (∀ (s : Session) (n : Int),
      setBreakpointCmd s (.num n) =
        ({ s with breakpoints := bpsAdd s.breakpoints n }, bpsAdd s.breakpoints n) ∧
      n ∈ (setBreakpointCmd s (.num n)).2 ∧
      (setBreakpointCmd (setBreakpointCmd s (.num n)).1 (.num n)).2 =
        (setBreakpointCmd s (.num n)).2) ∧
    (∀ (s : Session) (n : Int), s.breakpoints.Nodup →
      ((setBreakpointCmd s (.num n)).2).count n = 1) ∧
    (∀ s : Session, setBreakpointCmd s .nonNumeric = (s, s.breakpoints)) := by
  have hmem : ∀ (l : List Int) (n : Int), n ∈ bpsAdd l n := by
    intro l n
    unfold bpsAdd
    by_cases hc : l.contains n
    · rw [if_pos hc]
      simpa using hc
    · rw [if_neg hc]
      simp
  refine ⟨fun s n => ⟨rfl, hmem _ n, ?_⟩, fun s n hnd => ?_, fun s => rfl⟩
  · show bpsAdd (bpsAdd s.breakpoints n) n = bpsAdd s.breakpoints n
    have hhas : (bpsAdd s.breakpoints n).contains n := by simpa using hmem s.breakpoints n
    unfold bpsAdd at hhas ⊢
    rw [if_pos hhas]
  · show (bpsAdd s.breakpoints n).count n = 1
    unfold bpsAdd
    by_cases hc : s.breakpoints.contains n
    · rw [if_pos hc]
      exact List.count_eq_one_of_mem hnd (by simpa using hc)
    · rw [if_neg hc]
      have hnotmem : n ∉ s.breakpoints := by simpa using hc
      rw [List.count_append]
      simp [List.count_eq_zero_of_not_mem hnotmem]

/-- Witness for `set_breakpoint_spec`: the S6 scenario, `line = 7` set
twice on a fresh session. -/
theorem set_breakpoint_spec_witness :
    ((setBreakpointCmd { events := [], pointer := -1, breakpoints := [] }
        (.num 7)).2).count 7 = 1 ∧
    (setBreakpointCmd (setBreakpointCmd { events := [], pointer := -1, breakpoints := [] }
        (.num 7)).1 (.num 7)).2 =
      (setBreakpointCmd { events := [], pointer := -1, breakpoints := [] } (.num 7)).2 := by
  refine ⟨set_breakpoint_spec.2.1 _ 7 (by decide), ?_⟩
  exact (set_breakpoint_spec.1 { events := [], pointer := -1, breakpoints := [] } 7).2.2

/-! ## The Lang-A instrumenter

`instrumentJavaScript` parses the source with `@babel/parser`, rewrites
`let` / `const` declaration kinds to `var`, inserts an `__trace(line)`
statement before every non-block statement that is not already a
`__trace(...)` call, and regenerates source (comments kept) inside the
`(async () => { with (sandbox) { ... }})()` wrapper.  The embedding
works on the parsed AST: parsing and printing are the external Babel
collaborators, so programs enter the model as ASTs (string literals
carry their decoded contents, comments are attached to statements as
`leadC` / `trailC` in Babel's fashion) and `generate` is modelled by a
printer that emits declaration kinds, string literals and comments
verbatim. -/

/-- Declaration kinds of a `VariableDeclaration`: `let`, `const`, `var`. -/
inductive DeclKind where
  | dlet
  | dconst
  | dvar
deriving DecidableEq, Repr

mutual
/-- Lang-A expressions (the fragment exercised by the service: literals,
identifiers, member access, calls, async arrow functions). -/
inductive Expr where
  | numLit (n : Nat)
  | strLit (s : String)
  | ident (name : String)
  | member (obj : String) (prop : String)
  | call (callee : Expr) (args : List Expr)
  | asyncArrow (body : List Stmt)
deriving Repr

/-- Lang-A statement cores.  A `withStmt` / `asyncArrow` body is the
statement list of its block. -/
inductive StmtCore where
  | varDecl (kind : DeclKind) (name : String) (init : Expr)
  | exprStmt (e : Expr)
  | withStmt (obj : String) (body : List Stmt)
  | blockStmt (body : List Stmt)
deriving Repr

/-- A statement: its core, the 1-based start line recorded by the
parser, and the leading / trailing comments attached to it. -/
inductive Stmt where
  | mk (core : StmtCore) (line : Nat) (leadC : List String) (trailC : List String)
deriving Repr
end

/-- The core of a statement node. -/
def Stmt.core : Stmt → StmtCore
  | .mk c _ _ _ => c

/-- `node.loc.start.line` of a statement. -/
def Stmt.line : Stmt → Nat
  | .mk _ l _ _ => l

/-- Is this statement an `__trace(...)` expression statement?  Mirrors
`t.isCallExpression(node.expression) && t.isIdentifier(callee, { name:
'__trace' })`. -/
def isTraceCall (s : Stmt) : Bool :=
  match s.core with
  | .exprStmt (.call (.ident "__trace") _) => true
  | _ => false

/-- `path.isBlockStatement()`. -/
def isBlockStmtB (s : Stmt) : Bool :=
  match s.core with
  | .blockStmt _ => true
  | _ => false

/-- The visitor inserts a probe before a statement iff it is not a block
statement and not already a `__trace(...)` call (lines 38-51). -/
def shouldTrace (s : Stmt) : Bool :=
  !(isBlockStmtB s) && !(isTraceCall s)

/-- The declaration-kind rewrite (lines 32-36): `let` and `const`
become `var`; `var` is untouched. -/
def rewriteKind : DeclKind → DeclKind
  | .dlet => .dvar
  | .dconst => .dvar
  | .dvar => .dvar

/-- The synthesized probe `__trace(line);` (lines 47-49): no comments,
no original source location beyond the recorded argument. -/
def traceStmt (line : Nat) : Stmt :=
  .mk (.exprStmt (.call (.ident "__trace") [.numLit line])) line [] []

mutual
/-- The traversal on expressions: only descends into subterms; the
visitor mutates nothing at expression level. -/
def instrExpr : Expr → Expr
  | .numLit n => .numLit n
  | .strLit s => .strLit s
  | .ident n => .ident n
  | .member o p => .member o p
  | .call c args => .call (instrExpr c) (instrExprList args)
  | .asyncArrow body => .asyncArrow (instrStmts body)

/-- The traversal mapped over an argument list. -/
def instrExprList : List Expr → List Expr
  | [] => []
  | e :: es => instrExpr e :: instrExprList es

/-- The traversal on one statement: rewrite the declaration kind and
recurse into nested statement lists. -/
def instrStmt : Stmt → Stmt
  | .mk core line lead trail =>
    match core with
    | .varDecl k n i => .mk (.varDecl (rewriteKind k) n (instrExpr i)) line lead trail
    | .exprStmt e => .mk (.exprStmt (instrExpr e)) line lead trail
    | .withStmt obj body => .mk (.withStmt obj (instrStmts body)) line lead trail
    | .blockStmt body => .mk (.blockStmt (instrStmts body)) line lead trail

/-- The traversal on a statement list: for each statement, first insert
`__trace(line)` when `shouldTrace`, then the rewritten statement.
The inserted probes are themselves `__trace(...)` calls and therefore
not re-instrumented when visited. -/
def instrStmts : List Stmt → List Stmt
  | [] => []
  | s :: rest =>
    (if shouldTrace s then [traceStmt s.line] else []) ++ (instrStmt s :: instrStmts rest)
end

mutual
/-- Code generation for expressions (`@babel/generator` modelled as a
plain printer; string literals are re-quoted verbatim). -/
def genExpr : Expr → String
  | .numLit n => toString n
  | .strLit s => "\"" ++ s ++ "\""
  | .ident n => n
  | .member o p => o ++ "." ++ p
  | .call c args => genExpr c ++ "(" ++ genExprList args ++ ")"
  | .asyncArrow body => "async () => \x7b\n" ++ genStmts body ++ "\x7d"

/-- Comma-separated argument list. -/
def genExprList : List Expr → String
  | [] => ""
  | [e] => genExpr e
  | e :: es => genExpr e ++ ", " ++ genExprList es

/-- Code generation for one statement, with its leading and trailing
comments (the generator is invoked with `comments: true`). -/
def genStmt : Stmt → String
  | .mk core _ lead trail => genLead lead ++ genCore core ++ genTrail trail

/-- Leading line comments, one per line. -/
def genLead : List String → String
  | [] => ""
  | c :: cs => "//" ++ c ++ "\n" ++ genLead cs

/-- Trailing line comments, appended after the statement. -/
def genTrail : List String → String
  | [] => ""
  | c :: cs => " //" ++ c ++ genTrail cs

/-- Code generation for a statement core. -/
def genCore : StmtCore → String
  | .varDecl k n i =>
    (match k with
     | .dlet => "let"
     | .dconst => "const"
     | .dvar => "var") ++ " " ++ n ++ " = " ++ genExpr i ++ ";"
  | .exprStmt e => genExpr e ++ ";"
  | .withStmt obj body => "with (" ++ obj ++ ") \x7b\n" ++ genStmts body ++ "\x7d"
  | .blockStmt body => "\x7b\n" ++ genStmts body ++ "\x7d"

/-- Code generation for a statement list, one statement per line. -/
def genStmts : List Stmt → String
  | [] => ""
  | s :: rest => genStmt s ++ "\n" ++ genStmts rest
end

/-- `instrumentJavaScript` (lines 22-57) on a parsed program: run the
visitor, regenerate, and wrap in the async IIFE with the `with (sandbox)`
scope: the returned string is
`(async () => { with (sandbox) {\n<instrumented>\n}})()`. -/
def instrumentJavaScript (prog : List Stmt) : String :=
  "(async () => \x7b with (sandbox) \x7b\n" ++ genStmts (instrStmts prog) ++ "\n\x7d\x7d)()"

mutual
/-- All string-literal contents of an expression, in source order. -/
def exprStrings : Expr → List String
  | .numLit _ => []
  | .strLit s => [s]
  | .ident _ => []
  | .member _ _ => []
  | .call c args => exprStrings c ++ exprListStrings args
  | .asyncArrow body => stmtsStrings body

/-- String-literal contents of an argument list. -/
def exprListStrings : List Expr → List String
  | [] => []
  | e :: es => exprStrings e ++ exprListStrings es

/-- String-literal contents of one statement. -/
def stmtStrings : Stmt → List String
  | .mk core _ _ _ => coreStrings core

/-- String-literal contents of a statement core. -/
def coreStrings : StmtCore → List String
  | .varDecl _ _ i => exprStrings i
  | .exprStmt e => exprStrings e
  | .withStmt _ body => stmtsStrings body
  | .blockStmt body => stmtsStrings body

/-- String-literal contents of a statement list. -/
def stmtsStrings : List Stmt → List String
  | [] => []
  | s :: rest => stmtStrings s ++ stmtsStrings rest
end

mutual
/-- All comments attached in an expression's nested statement bodies. -/
def exprComments : Expr → List String
  | .numLit _ => []
  | .strLit _ => []
  | .ident _ => []
  | .member _ _ => []
  | .call c args => exprComments c ++ exprListComments args
  | .asyncArrow body => stmtsComments body

/-- Comments of an argument list. -/
def exprListComments : List Expr → List String
  | [] => []
  | e :: es => exprComments e ++ exprListComments es

/-- Comments attached to one statement (leading then trailing), plus
those of nested statements. -/
def stmtComments : Stmt → List String
  | .mk core _ lead trail => lead ++ trail ++ coreComments core

/-- Comments of a statement core. -/
def coreComments : StmtCore → List String
  | .varDecl _ _ i => exprComments i
  | .exprStmt e => exprComments e
  | .withStmt _ body => stmtsComments body
  | .blockStmt body => stmtsComments body

/-- Comments of a statement list. -/
def stmtsComments : List Stmt → List String
  | [] => []
  | s :: rest => stmtComments s ++ stmtsComments rest
end

mutual
/-- Trace-collecting evaluation of an expression, for the straight-line
fragment the instrumenter emits: a `__trace(n)` call records the step
event `n` (the `__trace` hook of the evaluator context, line 75-77); an
immediately-invoked async arrow runs its body to completion (it contains
no suspension points); any other call evaluates callee and arguments in
order and records nothing. -/
def evalExpr : Expr → List Nat
  | .call (.ident "__trace") [.numLit n] => [n]
  | .call (.asyncArrow body) [] => evalStmts body
  | .call c args => evalExpr c ++ evalExprList args
  | .asyncArrow _ => []
  | .numLit _ => []
  | .strLit _ => []
  | .ident _ => []
  | .member _ _ => []

/-- Evaluation of an argument list. -/
def evalExprList : List Expr → List Nat
  | [] => []
  | e :: es => evalExpr e ++ evalExprList es

/-- Evaluation of one statement. -/
def evalStmt : Stmt → List Nat
  | .mk core _ _ _ => evalCore core

/-- Evaluation of a statement core: declarations evaluate their
initializer; `with` and block statements run their bodies. -/
def evalCore : StmtCore → List Nat
  | .varDecl _ _ i => evalExpr i
  | .exprStmt e => evalExpr e
  | .withStmt _ body => evalStmts body
  | .blockStmt body => evalStmts body

/-- Evaluation of a statement list in order. -/
def evalStmts : List Stmt → List Nat
  | [] => []
  | s :: rest => evalStmt s ++ evalStmts rest
end

/-- The AST of the wrapper `(async () => { with (sandbox) { body }})()`
that `instrumentJavaScript` emits around the instrumented program (and
that the parser returns when the instrumented output is parsed again). -/
def wrapProgram (body : List Stmt) : List Stmt :=
  [Stmt.mk (.exprStmt (.call
    (.asyncArrow [Stmt.mk (.withStmt "sandbox" body) 1 [] []]) [])) 1 [] []]

/-- Is the first character list a prefix of the second? -/
def isPrefixChars : List Char → List Char → Bool
  | [], _ => true
  | _ :: _, [] => false
  | c :: cs, d :: ds => c = d && isPrefixChars cs ds

/-- Does the needle occur at some position of the haystack? -/
def containsAux (needle : List Char) : List Char → Bool
  | [] => isPrefixChars needle []
  | c :: cs => isPrefixChars needle (c :: cs) || containsAux needle cs

/-- Substring test on strings. -/
def containsStr (haystack needle : String) : Bool :=
  containsAux needle.data haystack.data

/-! ## Claim C1: the instrumenter and strings / comments -/

/-- The S1 source of the repository's own instrumenter test, as parsed
by Babel:

`// comment with let and const`
`const msg = "let inside string"; // inline const`
`let x = 1;`
`console.log(msg);`

The first line comment leads the `const` declaration (line 2); the
inline comment trails it. -/
def s1Program : List Stmt :=
  [Stmt.mk (.varDecl .dconst "msg" (.strLit "let inside string")) 2
    [" comment with let and const"] [" inline const"],
   Stmt.mk (.varDecl .dlet "x" (.numLit 1)) 3 [] [],
   Stmt.mk (.exprStmt (.call (.member "console" "log") [.ident "msg"])) 4 [] []]

mutual
/-- Instrumentation never changes a string literal's contents (expressions). -/
theorem exprStrings_instr : ∀ e, exprStrings (instrExpr e) = exprStrings e
  | .numLit _ => rfl
  | .strLit _ => rfl
  | .ident _ => rfl
  | .member _ _ => rfl
  | .call c args => by
    simp only [instrExpr, exprStrings, exprStrings_instr c, exprListStrings_instr args]
  | .asyncArrow body => by
    simp only [instrExpr, exprStrings, stmtsStrings_instr body]

/-- Instrumentation never changes string literals (argument lists). -/
theorem exprListStrings_instr :
    ∀ es, exprListStrings (instrExprList es) = exprListStrings es
  | [] => rfl
  | e :: es => by
    simp only [instrExprList, exprListStrings, exprStrings_instr e, exprListStrings_instr es]

/-- Instrumentation never changes string literals (single statement). -/
theorem stmtStrings_instr : ∀ s, stmtStrings (instrStmt s) = stmtStrings s
  | .mk core line lead trail => by
    cases core with
    | varDecl k n i =>
      simp only [instrStmt, stmtStrings, coreStrings, exprStrings_instr i]
    | exprStmt e =>
      simp only [instrStmt, stmtStrings, coreStrings, exprStrings_instr e]
    | withStmt obj body =>
      simp only [instrStmt, stmtStrings, coreStrings, stmtsStrings_instr body]
    | blockStmt body =>
      simp only [instrStmt, stmtStrings, coreStrings, stmtsStrings_instr body]

/-- Instrumentation never changes string literals (statement lists):
the inserted `__trace(line)` probes contain no string literal. -/
theorem stmtsStrings_instr : ∀ l, stmtsStrings (instrStmts l) = stmtsStrings l
  | [] => rfl
  | s :: rest => by
    by_cases h : shouldTrace s
    · simp [instrStmts, h, stmtsStrings, traceStmt, stmtStrings, coreStrings,
        exprStrings, exprListStrings, stmtStrings_instr s, stmtsStrings_instr rest]
    · simp [instrStmts, h, stmtsStrings, stmtStrings_instr s, stmtsStrings_instr rest]
end

mutual
/-- Instrumentation never touches comments (expressions). -/
theorem exprComments_instr : ∀ e, exprComments (instrExpr e) = exprComments e
  | .numLit _ => rfl
  | .strLit _ => rfl
  | .ident _ => rfl
  | .member _ _ => rfl
  | .call c args => by
    simp only [instrExpr, exprComments, exprComments_instr c, exprListComments_instr args]
  | .asyncArrow body => by
    simp only [instrExpr, exprComments, stmtsComments_instr body]

/-- Instrumentation never touches comments (argument lists). -/
theorem exprListComments_instr :
    ∀ es, exprListComments (instrExprList es) = exprListComments es
  | [] => rfl
  | e :: es => by
    simp only [instrExprList, exprListComments, exprComments_instr e,
      exprListComments_instr es]

/-- Instrumentation never touches comments (single statement). -/
theorem stmtComments_instr : ∀ s, stmtComments (instrStmt s) = stmtComments s
  | .mk core line lead trail => by
    cases core with
    | varDecl k n i =>
      simp only [instrStmt, stmtComments, coreComments, exprComments_instr i]
    | exprStmt e =>
      simp only [instrStmt, stmtComments, coreComments, exprComments_instr e]
    | withStmt obj body =>
      simp only [instrStmt, stmtComments, coreComments, stmtsComments_instr body]
    | blockStmt body =>
      simp only [instrStmt, stmtComments, coreComments, stmtsComments_instr body]

/-- Instrumentation never touches comments (statement lists): inserted
probes carry no comments. -/
theorem stmtsComments_instr : ∀ l, stmtsComments (instrStmts l) = stmtsComments l
  | [] => rfl
  | s :: rest => by
    by_cases h : shouldTrace s
    · simp [instrStmts, h, stmtsComments, traceStmt, stmtComments, coreComments,
        exprComments, exprListComments, stmtComments_instr s, stmtsComments_instr rest]
    · simp [instrStmts, h, stmtsComments, stmtComments_instr s, stmtsComments_instr rest]
end

/-- Claim C1: the instrumenter rewrites only declaration kinds and
inserts probes — for every program, every string literal's contents and
every comment survive instrumentation verbatim (so a `let` or `const`
inside a string literal or comment is never rewritten).  On the S1
program, the emitted output contains `var msg` and `var x`, still
contains the literal substring `"let inside string"` unchanged and both
comments, and contains neither `const msg` nor `let x`. -/
theorem instrument_preserves_strings_and_comments :
    (∀ prog : List Stmt, stmtsStrings (instrStmts prog) = stmtsStrings prog) ∧
    (∀ prog : List Stmt, stmtsComments (instrStmts prog) = stmtsComments prog) ∧
    containsStr (instrumentJavaScript s1Program) "var msg" = true ∧
    containsStr (instrumentJavaScript s1Program) "var x" = true ∧
    containsStr (instrumentJavaScript s1Program) "\"let inside string\"" = true ∧
    containsStr (instrumentJavaScript s1Program) "// inline const" = true ∧
    containsStr (instrumentJavaScript s1Program) "// comment with let and const" = true ∧
    containsStr (instrumentJavaScript s1Program) "const msg" = false ∧
    containsStr (instrumentJavaScript s1Program) "let x" = false := by
  refine ⟨stmtsStrings_instr, stmtsComments_instr, ?_, ?_, ?_, ?_, ?_, ?_, ?_⟩ <;> decide

/-! ## Claim C3: idempotence of the instrumenter -/

/-- The one-statement program `let x = 1;`. -/
def p0 : List Stmt := [Stmt.mk (.varDecl .dlet "x" (.numLit 1)) 1 [] []]

/-- The parse of `instrumentJavaScript p0`'s output (shown literally in
`instrument_not_idempotent`): the IIFE expression statement on line 1
wrapping `with (sandbox)` (line 1), whose block holds the probe
`__trace(1);` on line 2 and `var x = 1;` on line 3. -/
def reparsedP0 : List Stmt :=
  [Stmt.mk (.exprStmt (.call (.asyncArrow
    [Stmt.mk (.withStmt "sandbox"
      [Stmt.mk (.exprStmt (.call (.ident "__trace") [.numLit 1])) 2 [] [],
       Stmt.mk (.varDecl .dvar "x" (.numLit 1)) 3 [] []]) 1 [] []]) [])) 1 [] []]

/-- Claim C3 counterexample.  Instrumenting `let x = 1;` gives one
`__trace` probe, so the single-instrumented program emits the Step
sequence `[1]`.  Re-instrumenting the (re-parsed) output inserts fresh
probes before the wrapper statement, the `with` statement and the
variable declaration — the existing probe only protects itself — so the
doubly-instrumented program emits `[1, 1, 1, 3]`: four Step events, not
the same sequence. -/
theorem instrument_not_idempotent :
    instrumentJavaScript p0 =
      "(async () => \x7b with (sandbox) \x7b\n__trace(1);\nvar x = 1;\n\n\x7d\x7d)()" ∧
    evalStmts (wrapProgram (instrStmts p0)) = [1] ∧
    evalStmts (wrapProgram (instrStmts reparsedP0)) = [1, 1, 1, 3] ∧
    evalStmts (wrapProgram (instrStmts reparsedP0)) ≠
      evalStmts (wrapProgram (instrStmts p0)) := by
  refine ⟨?_, ?_, ?_, ?_⟩ <;> decide

/-- Claim C3 (amended): re-instrumenting never inserts a probe directly
before an existing `__trace(...)` statement (the detect-and-skip check),
but instrumentation is not idempotent: the second pass still inserts new
probes before the wrapper statement, the `with` statement and every
original statement, so the doubly-instrumented program of `let x = 1;`
emits four Step events where the singly-instrumented one emits one. -/
theorem instrument_skips_existing_traces :
    (∀ (n : Nat) (rest : List Stmt),
      instrStmts (traceStmt n :: rest) = traceStmt n :: instrStmts rest) ∧
    (evalStmts (wrapProgram (instrStmts reparsedP0))).length = 4 ∧
    (evalStmts (wrapProgram (instrStmts p0))).length = 1 := by
  refine ⟨fun n rest => ?_, by decide, by decide⟩
  simp [instrStmts, shouldTrace, isTraceCall, isBlockStmtB, traceStmt, Stmt.core,
    instrStmt, instrExpr, instrExprList]

/-! ## The Lang-B tracer runner

`executeCode` (python branch, lines 90-107) and `startDebugSession`
(lines 113-141) write the source to a temp file, spawn
`python3 <tracer> <file> [...]` with a 5-second timeout, and parse the
captured stdout with `JSON.parse`.  The subprocess outcome and the JSON
parser are the external collaborators here: the outcome enters the model
as a value, and `JSON.parse` is modelled by `jsonParse` below. -/

/-- A JSON value (integers suffice for the numbers the tracer emits). -/
inductive Json where
  | null
  | bool (b : Bool)
  | num (n : Int)
  | str (s : String)
  | arr (elems : List Json)
  | obj (fields : List (String × Json))
deriving Repr

/-- The opening-brace character, written by code point. -/
def openBraceChar : Char := Char.ofNat 123

/-- The closing-brace character, written by code point. -/
def closeBraceChar : Char := Char.ofNat 125

/-- JSON whitespace. -/
def jsonWs (c : Char) : Bool :=
  c = ' ' || c = '\n' || c = '\t' || c = '\r'

/-- Skip whitespace, tracking the input position. -/
def skipWs : List Char → Nat → List Char × Nat
  | [], p => ([], p)
  | c :: cs, p => if jsonWs c then skipWs cs (p + 1) else (c :: cs, p)

/-- The `SyntaxError` message `JSON.parse` raises at an unexpected
character. -/
def unexpectedToken (c : Char) (p : Nat) : String :=
  "Unexpected token " ++ String.singleton c ++ " in JSON at position " ++ toString p

/-- The `SyntaxError` message `JSON.parse` raises at a truncated input. -/
def unexpectedEnd : String := "Unexpected end of JSON input"

/-- Consume a run of decimal digits, accumulating their value. -/
def digitsAux (acc : Nat) : List Char → Nat → Nat × List Char × Nat
  | [], p => (acc, [], p)
  | c :: cs, p =>
    if c.isDigit then digitsAux (acc * 10 + (c.toNat - 48)) cs (p + 1)
    else (acc, c :: cs, p)

/-- Consume the body of a quoted string up to the closing quote,
decoding the common escapes. -/
def strAux : List Char → Nat → List Char → Except String (List Char × List Char × Nat)
  | [], _, _ => .error unexpectedEnd
  | c :: cs, p, acc =>
    if c = '"' then .ok (acc.reverse, cs, p + 1)
    else if c = '\\' then
      match cs with
      | [] => .error unexpectedEnd
      | d :: ds =>
        let esc := if d = 'n' then '\n' else if d = 't' then '\t'
          else if d = 'r' then '\r' else d
        strAux ds (p + 2) (esc :: acc)
    else strAux cs (p + 1) (c :: acc)

mutual
/-- Model of `JSON.parse` on one value: recursive descent over the
character list.  The `fuel` argument (one unit per parsed value, each of
which consumes at least one character) is a termination device; the
entry point supplies more fuel than the input length. -/
def parseVal : Nat → List Char → Nat → Except String (Json × List Char × Nat)
  | 0, _, _ => .error unexpectedEnd
  | fuel + 1, cs0, p0 =>
    let sp := skipWs cs0 p0
    match sp.1, sp.2 with
    | [], _ => .error unexpectedEnd
    | c :: rest, p =>
      if isPrefixChars "null".data (c :: rest) then
        .ok (.null, (c :: rest).drop 4, p + 4)
      else if isPrefixChars "true".data (c :: rest) then
        .ok (.bool true, (c :: rest).drop 4, p + 4)
      else if isPrefixChars "false".data (c :: rest) then
        .ok (.bool false, (c :: rest).drop 5, p + 5)
      else if c = '"' then
        match strAux rest (p + 1) [] with
        | .error e => .error e
        | .ok (body, cs1, p1) => .ok (.str (String.mk body), cs1, p1)
      else if c = '-' then
        match rest with
        | d :: _ =>
          if d.isDigit then
            let r := digitsAux 0 rest (p + 1)
            .ok (.num (-(r.1 : Int)), r.2.1, r.2.2)
          else .error (unexpectedToken c p)
        | [] => .error (unexpectedToken c p)
      else if c.isDigit then
        let r := digitsAux 0 (c :: rest) p
        .ok (.num (r.1 : Int), r.2.1, r.2.2)
      else if c = '[' then
        let sp1 := skipWs rest (p + 1)
        match sp1.1, sp1.2 with
        | ']' :: cs2, p2 => .ok (.arr [], cs2, p2 + 1)
        | _, _ =>
          match parseArrElems fuel sp1.1 sp1.2 with
          | .error e => .error e
          | .ok (vs, cs2, p2) => .ok (.arr vs, cs2, p2)
      else if c = openBraceChar then
        let sp1 := skipWs rest (p + 1)
        match sp1.1 with
        | d :: cs2 =>
          if d = closeBraceChar then .ok (.obj [], cs2, sp1.2 + 1)
          else
            match parseObjFields fuel sp1.1 sp1.2 with
            | .error e => .error e
            | .ok (fs, cs3, p3) => .ok (.obj fs, cs3, p3)
        | [] => .error unexpectedEnd
      else .error (unexpectedToken c p)

/-- Comma-separated array elements up to the closing bracket. -/
def parseArrElems : Nat → List Char → Nat → Except String (List Json × List Char × Nat)
  | 0, _, _ => .error unexpectedEnd
  | fuel + 1, cs, p =>
    match parseVal fuel cs p with
    | .error e => .error e
    | .ok (v, cs1, p1) =>
      let sp := skipWs cs1 p1
      match sp.1, sp.2 with
      | ',' :: cs2, p2 =>
        match parseArrElems fuel cs2 (p2 + 1) with
        | .error e => .error e
        | .ok (vs, cs3, p3) => .ok (v :: vs, cs3, p3)
      | ']' :: cs2, p2 => .ok ([v], cs2, p2 + 1)
      | [], _ => .error unexpectedEnd
      | c :: _, p2 => .error (unexpectedToken c p2)

/-- Comma-separated `"key": value` fields up to the closing brace. -/
def parseObjFields : Nat → List Char → Nat → Except String (List (String × Json) × List Char × Nat)
  | 0, _, _ => .error unexpectedEnd
  | fuel + 1, cs, p =>
    let sp := skipWs cs p
    match sp.1, sp.2 with
    | '"' :: cs1, p1 =>
      match strAux cs1 (p1 + 1) [] with
      | .error e => .error e
      | .ok (key, cs2, p2) =>
        let sp2 := skipWs cs2 p2
        match sp2.1, sp2.2 with
        | ':' :: cs3, p3 =>
          match parseVal fuel cs3 (p3 + 1) with
          | .error e => .error e
          | .ok (v, cs4, p4) =>
            let sp3 := skipWs cs4 p4
            match sp3.1, sp3.2 with
            | [], _ => .error unexpectedEnd
            | d :: cs5, p5 =>
              if d = ',' then
                match parseObjFields fuel cs5 (p5 + 1) with
                | .error e => .error e
                | .ok (fs, cs6, p6) => .ok ((String.mk key, v) :: fs, cs6, p6)
              else if d = closeBraceChar then
                .ok ([(String.mk key, v)], cs5, p5 + 1)
              else .error (unexpectedToken d p5)
        | [], _ => .error unexpectedEnd
        | d :: _, p3 => .error (unexpectedToken d p3)
    | [], _ => .error unexpectedEnd
    | d :: _, p1 => .error (unexpectedToken d p1)
end

/-- Model of `JSON.parse` (the external platform builtin): parse one
JSON document, requiring only trailing whitespace after it.  On failure
the `Except.error` carries the `SyntaxError` message. -/
def jsonParse (s : String) : Except String Json :=
  match parseVal (s.length + 1) s.data 0 with
  | .error e => .error e
  | .ok (v, cs, p) =>
    let sp := skipWs cs p
    match sp.1, sp.2 with
    | [], _ => .ok v
    | c :: _, p1 => .error (unexpectedToken c p1)

/-- Property lookup on an object field list. -/
def lookupField : List (String × Json) → String → Option Json
  | [], _ => none
  | (k, v) :: rest, key => if k = key then some v else lookupField rest key

/-- JavaScript property access `data.key`: a field of an object, and
`undefined` (here `none`) on a missing field or a non-object.  (JS would
throw on `null`; the tracer contract always delivers an object, and no
theorem below depends on that corner.) -/
def Json.getField : Json → String → Option Json
  | .obj fields, key => lookupField fields key
  | _, _ => none

/-- `data.status === 'error'`. -/
def isErrorStatus (data : Json) : Bool :=
  match data.getField "status" with
  | some (.str s) => s = "error"
  | _ => false

/-- The payload `executeCode` sends for a python run: HTTP status code
and the `{ events, output, error, message? }` body (absent fields are
`none`). -/
structure PyResponse where
  statusCode : Nat
  events : Option Json
  output : Option Json
  error : Bool
  message : Option Json
deriving Repr

/-- Outcome of `execFileAsync('python3', ...)`: either the promise
resolved with the captured stdout, or it rejected (timeout kill, spawn
failure) with `err.message`. -/
inductive SubprocessOutcome where
  | completed (stdout : String)
  | failed (message : String)
deriving DecidableEq, Repr

/-- The python branch of `executeCode` (lines 90-107), as a function of
the subprocess outcome and of the JSON parser used for stdout: a
rejected subprocess lands in the catch with
`{ events: [], output: '', error: true, message: err.message }`; a
`JSON.parse` failure throws and lands in the same catch with the parser
message; a parsed `status === 'error'` document maps to an error payload
carrying the document's fields; anything else is a success payload.  All
four paths respond with HTTP 200. -/
def pythonExecute (parse : String → Except String Json) :
    SubprocessOutcome → PyResponse
  | .failed msg =>
    { statusCode := 200, events := some (.arr []), output := some (.str ""),
      error := true, message := some (.str msg) }
  | .completed stdout =>
    match parse stdout with
    | .error m =>
      { statusCode := 200, events := some (.arr []), output := some (.str ""),
        error := true, message := some (.str m) }
    | .ok data =>
      if isErrorStatus data then
        { statusCode := 200, events := data.getField "traces",
          output := data.getField "stdout", error := true,
          message := data.getField "error" }
      else
        { statusCode := 200, events := data.getField "traces",
          output := data.getField "stdout", error := false, message := none }

/-! ## Claim C7: stdout parse failures and timeouts -/

/-- Claim C7 counterexample.  When the tracer prints the non-JSON stdout
`oops`, the service responds 200 / `error: true` — but the message is
the `JSON.parse` SyntaxError text, not the raw stdout `oops` the claim
requires, and the output field is emptied rather than carrying stdout. -/
theorem parse_failure_reports_parser_message :
    pythonExecute jsonParse (.completed "oops") =
      { statusCode := 200, events := some (.arr []), output := some (.str ""),
        error := true,
        message := some (.str "Unexpected token o in JSON at position 0") } ∧
    (some (Json.str "Unexpected token o in JSON at position 0") ≠
      some (Json.str "oops")) := by
  refine ⟨rfl, by simp⟩

/-- Claim C7 (amended): when the tracer's stdout fails to parse as JSON
the service responds HTTP 200 with `error: true`, an empty event list,
an empty output and the JSON parser's own error message (not the raw
stdout); a subprocess timeout (or any other subprocess failure) responds
HTTP 200 with `error: true`, an empty event list and the OS-reported
message. -/
theorem python_error_paths (parse : String → Except String Json) :
    (∀ stdout m, parse stdout = .error m →
      pythonExecute parse (.completed stdout) =
        { statusCode := 200, events := some (.arr []), output := some (.str ""),
          error := true, message := some (.str m) }) ∧
    (∀ msg, pythonExecute parse (.failed msg) =
      { statusCode := 200, events := some (.arr []), output := some (.str ""),
        error := true, message := some (.str msg) }) := by
  constructor
  · intro stdout m hm
    simp [pythonExecute, hm]
  · intro msg
    rfl

/-- Witness for `python_error_paths` with the modelled `JSON.parse` on
the non-JSON stdout `bad` and on a timeout message. -/
theorem python_error_paths_witness :
    pythonExecute jsonParse (.completed "bad") =
      { statusCode := 200, events := some (.arr []), output := some (.str ""),
        error := true,
        message := some (.str "Unexpected token b in JSON at position 0") } ∧
    pythonExecute jsonParse (.failed "spawn python3 ETIMEDOUT") =
      { statusCode := 200, events := some (.arr []), output := some (.str ""),
        error := true, message := some (.str "spawn python3 ETIMEDOUT") } :=
  ⟨(python_error_paths jsonParse).1 "bad"
      "Unexpected token b in JSON at position 0" rfl,
    (python_error_paths jsonParse).2 "spawn python3 ETIMEDOUT"⟩

/-! ## Claim C8: the tracer argv -/

/-- A subprocess invocation: the command and its argument vector. -/
structure SpawnCall where
  cmd : String
  args : List String
deriving DecidableEq, Repr

/-- `JSON.stringify` on a numeric array. -/
def jsonStringifyNums (xs : List Int) : String :=
  "[" ++ String.intercalate "," (xs.map toString) ++ "]"

/-- The spawn of `executeCode`'s python branch (line 97):
`execFileAsync('python3', [tracerPath, filePath], ...)`. -/
def executeTracerSpawn (tracerPath filePath : String) : SpawnCall :=
  { cmd := "python3", args := [tracerPath, filePath] }

/-- The spawn of `startDebugSession` (line 124):
`execFileAsync('python3', [tracerPath, filePath,
JSON.stringify(breakpoints)], ...)`. -/
def debugTracerSpawn (tracerPath filePath : String) (breakpoints : List Int) : SpawnCall :=
  { cmd := "python3", args := [tracerPath, filePath, jsonStringifyNums breakpoints] }

/-- Claim C8 counterexample.  `startDebugSession` with an empty
breakpoint list still passes a third argument, the string `[]`: the
tracer receives three arguments, not two as the claim requires. -/
theorem debug_spawn_three_args_when_empty :
    debugTracerSpawn "pythonTracer.py" "prog.py" [] =
      { cmd := "python3", args := ["pythonTracer.py", "prog.py", "[]"] } ∧
    (debugTracerSpawn "pythonTracer.py" "prog.py" []).args.length ≠ 2 := by
  decide

/-- Claim C8 (amended): `executeCode`'s python branch always spawns the
tracer with exactly `[tracerPath, filePath]` (it never forwards
breakpoints), while `startDebugSession` always appends the JSON-encoded
breakpoint list as a third argument — including the encoding `[]` of an
empty list. -/
theorem tracer_spawn_args (tracerPath filePath : String) (breakpoints : List Int) :
    executeTracerSpawn tracerPath filePath =
      { cmd := "python3", args := [tracerPath, filePath] } ∧
    debugTracerSpawn tracerPath filePath breakpoints =
      { cmd := "python3",
        args := [tracerPath, filePath, jsonStringifyNums breakpoints] } ∧
    jsonStringifyNums [] = "[]" ∧
    (debugTracerSpawn tracerPath filePath breakpoints).args.length = 3 :=
  ⟨rfl, rfl, rfl, rfl⟩

/-! ## Claim C10: the execution endpoint's input guard -/

/-- JavaScript truthiness of an optional string field: `undefined` and
the empty string are falsy, all other strings truthy. -/
def jsTruthy : Option String → Bool
  | none => false
  | some s => !(s == "")

/-- What the execution endpoint decides to do with a request. -/
inductive ExecAction where
  | clientError (status : Nat) (message : String)
  | runJavascript (code : String)
  | runPython (code : String)
deriving DecidableEq, Repr

/-- The entry of `executeCode` (lines 59-65, 90, 110): the
`if (!language || !code)` guard rejects with 400, then the language
dispatch picks the javascript or python branch, and anything else is
rejected with 400. -/
def executeCodeDispatch (language code : Option String) : ExecAction :=
  if !(jsTruthy language) || !(jsTruthy code) then
    .clientError 400 "Language and code are required."
  else if language == some "javascript" then .runJavascript (code.getD "")
  else if language == some "python" then .runPython (code.getD "")
  else .clientError 400 "Unsupported language."

/-- Claim C10: a request whose `code` is the empty string (or whose
`language` is the empty string) is rejected with HTTP 400 `Language and
code are required.` exactly as when the field is absent — the empty
string is falsy, so such a request never reaches the javascript or
python branch. -/
theorem empty_code_rejected :
    (∀ language : Option String, executeCodeDispatch language (some "") =
      .clientError 400 "Language and code are required.") ∧
    (∀ language : Option String, executeCodeDispatch language none =
      .clientError 400 "Language and code are required.") ∧
    (∀ code : Option String, executeCodeDispatch (some "") code =
      .clientError 400 "Language and code are required.") ∧
    (∀ code : Option String, executeCodeDispatch none code =
      .clientError 400 "Language and code are required.") := by
  refine ⟨fun language => ?_, fun language => ?_, fun code => ?_, fun code => ?_⟩ <;>
    simp [executeCodeDispatch, jsTruthy]

end ExecService
